import Mathlib

/-!
Verification development for the `Trading-Bot` repository.

The development shallowly embeds the two Python source files:

* `tradelocker_feed.py` — the `TradeLockerFeed` data feed: historical preload,
  live polling with session/weekday/duplicate gates, and the cursor state
  machine in `next()` / `_get_bar()`.
* `momentum_bot.py` — the `EmaCrossStrategy` pending-order discipline in
  `next()` / `notify_order()`.

Modelling conventions:

* `datetime` values are minutes since 1970-01-01 00:00 (a `Nat`).
  1970-01-01 is a Thursday, whose Python `weekday()` is 3, so the weekday of
  a timestamp `t` is `(t / 1440 + 3) % 7` (Monday = 0, ..., Sunday = 6).
* Python floats are modelled as exact rationals (`ℚ`).  The feed's price
  arithmetic is carried over literally on `ℚ`.
* The wall clock read by `_fetch_live_bar` (`datetime.datetime.now()` and the
  two `time.time() % _` reads) is passed in explicitly as an `Env` value.
* `numpy`'s random draws in `_load_historical_data` are passed in explicitly
  as a `NoiseStreams` record of per-index sample streams.
* Timeframe strings are modelled as `List Char`; Python's `int(s)` on an
  all-digit string is modelled by `pyInt?` (non-digit input raises in Python
  and is `none` here).
* Session start/end times (`'09:30'` strings parsed by `strptime`) are
  modelled directly as minute-of-day counts.
-/

namespace TradingBot

/-- One OHLCV price bar, the record produced by both the historical loader and
the live poller (`datetime` / `open` / `high` / `low` / `close` / `volume` /
`openinterest`). -/
structure Bar where
  datetime : Nat
  «open» : ℚ
  high : ℚ
  low : ℚ
  close : ℚ
  volume : ℚ
  openinterest : ℚ
  deriving DecidableEq

/-- The `params` tuple of `TradeLockerFeed` (lines 18-30 of
`tradelocker_feed.py`).  The opaque API handle is modelled as `Option Unit`
(present or absent); session times as minute-of-day counts. -/
structure CtorArgs where
  symbol : Option String
  timeframe : List Char
  fromdate : Option Nat
  todate : Option Nat
  historical : Bool
  backfill : Bool
  api : Option Unit
  ohlcv : Bool
  sessionstart : Option Nat
  sessionend : Option Nat
  deriving DecidableEq

/-- The mutable state of a `TradeLockerFeed` instance once started:
`hist_data`, `_idx`, `live_buffer`, `last_bar_time`, `last_bar`, plus the
classification `intraday` computed in `__init__` and the constructor
parameters. -/
structure FeedState where
  p : CtorArgs
  intraday : Bool
  hist_data : List Bar
  idx : Int
  live_buffer : List Bar
  last_bar_time : Option Nat
  last_bar : Option Bar
  deriving DecidableEq

/-- The ambient wall-clock readings consumed by one `_fetch_live_bar` call:
`now` (minutes since epoch) and the two `time.time()` remainders used for the
simulated price and volume. -/
structure Env where
  now : Nat
  tmod2 : ℚ
  tmod1000 : ℚ
  deriving DecidableEq

/-- The per-index random samples drawn by `_load_historical_data`
(lines 135-140): the `normal(0.01, 0.1)` close increments, the
`normal(0, 0.1)` open offsets, the `normal(0.05, 0.05)` high and low
offsets, and the `randint(1000, 10000)` volumes. -/
structure NoiseStreams where
  closeDelta : Nat → ℚ
  openNoise : Nat → ℚ
  highNoise : Nat → ℚ
  lowNoise : Nat → ℚ
  vol : Nat → ℚ

/-- Python `int(s)` on the digit string `s` (used on `timeframe[:-1]`).
Python raises `ValueError` on a non-digit string; that is modelled as
`none`. -/
def pyInt? (s : List Char) : Option Nat :=
  if s ≠ [] ∧ ∀ c ∈ s, c.isDigit = true then
    some (s.foldl (fun n c => n * 10 + (c.toNat - 48)) 0)
  else none

namespace TradeLockerFeed

/-- Python `weekday()` of a minute timestamp: 1970-01-01 (day 0) is a
Thursday, i.e. weekday 3. -/
def weekday (t : Nat) : Nat := (t / 1440 + 3) % 7

/-- Classification computed in `__init__` line 43:
`self.p.timeframe[-1] not in ('d', 'w', 'm')`. -/
def intradayOf (tf : List Char) : Bool :=
  !(tf.getLast? == some 'd' || tf.getLast? == some 'w' || tf.getLast? == some 'm')

/-- The errors `__init__` can raise: the two explicit `ValueError` checks
(lines 36-40) and the `IndexError` from `timeframe[-1]` on an empty
timeframe string (line 43). -/
inductive InitError where
  | missingApi
  | missingSymbol
  | badTimeframe
  deriving DecidableEq

/-- The data `__init__` computes that later calls consult. -/
structure InitResult where
  intraday : Bool
  deriving DecidableEq

/-- `TradeLockerFeed.__init__` (lines 32-68): raises when the API handle is
absent, then when the symbol is absent, then evaluates `timeframe[-1]`
(raising `IndexError` on an empty timeframe), and otherwise records the
intraday classification. -/
def feedInit (args : CtorArgs) : Except InitError InitResult :=
  if args.api.isNone then .error .missingApi
  else if args.symbol.isNone then .error .missingSymbol
  else if args.timeframe.isEmpty then .error .badTimeframe
  else .ok { intraday := intradayOf args.timeframe }

/-- Session-hours gate of `_fetch_live_bar` (lines 168-173): if both session
bounds are configured the current time of day must lie in the inclusive
window, otherwise the gate is open. -/
def is_trading_hours (p : CtorArgs) (now : Nat) : Bool :=
  match p.sessionstart, p.sessionend with
  | some ss, some se => decide (ss ≤ now % 1440) && decide (now % 1440 ≤ se)
  | _, _ => true

/-- Weekday gate of `_fetch_live_bar` (line 176). -/
def is_weekday (now : Nat) : Bool := decide (weekday now < 5)

/-- Candidate bar timestamp of `_fetch_live_bar` (lines 181-195): floor the
current time to the timeframe boundary for intraday feeds, to midnight for
daily feeds. -/
def bar_time_of (intraday : Bool) (tfm : Nat) (now : Nat) : Nat :=
  if intraday then (now / 1440) * 1440 + ((now % 1440) / tfm) * tfm
  else (now / 1440) * 1440

/-- Duplicate-suppression gate (line 198): `last_bar_time` is truthy and the
candidate time is not strictly beyond it. -/
def isDup (last_bar_time : Option Nat) (bar_time : Nat) : Bool :=
  match last_bar_time with
  | some t => decide (bar_time ≤ t)
  | none => false

/-- Simulated close of the next live bar (line 205):
`last_close * (1 + (0.001 * (0.5 - float(time.time() % 2))))`. -/
def live_close (lb : Bar) (e : Env) : ℚ :=
  lb.close * (1 + (1/1000) * (1/2 - e.tmod2))

/-- The bar record built by `_fetch_live_bar` once all gates pass
(lines 201-223): a perturbation of the previous bar's close, or the fixed
first-bar values when no previous bar exists. -/
def live_bar_data (st : FeedState) (e : Env) (bar_time : Nat) : Bar :=
  { datetime := bar_time
    «open» := match st.last_bar with
      | some lb => lb.close
      | none => 9995/100
    high := match st.last_bar with
      | some lb => max lb.close (live_close lb e) + 1/1000
      | none => 10005/100
    low := match st.last_bar with
      | some lb => min lb.close (live_close lb e) - 1/1000
      | none => 999/10
    close := match st.last_bar with
      | some lb => live_close lb e
      | none => 100
    volume := 1000 + e.tmod1000
    openinterest := 0 }

/-- `_fetch_live_bar` (lines 159-227): session gate, weekday gate,
duplicate gate, then emit one bar and record `last_bar` /
`last_bar_time`. -/
def fetch_live_bar (st : FeedState) (e : Env) : Option Bar × FeedState :=
  if !(is_trading_hours st.p e.now && is_weekday e.now) then (none, st)
  else if isDup st.last_bar_time
      (bar_time_of st.intraday ((pyInt? st.p.timeframe.dropLast).getD 0) e.now) then
    (none, st)
  else
    (some (live_bar_data st e
        (bar_time_of st.intraday ((pyInt? st.p.timeframe.dropLast).getD 0) e.now)),
     { st with
        last_bar := some (live_bar_data st e
          (bar_time_of st.intraday ((pyInt? st.p.timeframe.dropLast).getD 0) e.now))
        last_bar_time :=
          some (bar_time_of st.intraday ((pyInt? st.p.timeframe.dropLast).getD 0) e.now) })

/-- `_load_next_live_bar` (lines 229-235): fetch and append to the live
buffer, reporting whether a bar arrived. -/
def load_next_live_bar (st : FeedState) (e : Env) : Bool × FeedState :=
  match fetch_live_bar st e with
  | (some b, st2) => (true, { st2 with live_buffer := st2.live_buffer ++ [b] })
  | (none, st2) => (false, st2)

/-- The live-path tail of `_get_bar` (lines 244-254): refill the buffer if
empty, then pop the front. -/
def get_bar_live (st : FeedState) (e : Env) : Option Bar × FeedState :=
  if st.live_buffer.isEmpty then
    match load_next_live_bar st e with
    | (false, st2) => (none, st2)
    | (true, st2) =>
      match st2.live_buffer with
      | [] => (none, st2)
      | b :: rest => (some b, { st2 with live_buffer := rest })
  else
    match st.live_buffer with
    | [] => (none, st)
    | b :: rest => (some b, { st with live_buffer := rest })

/-- `_get_bar` (lines 237-254): serve `hist_data.iloc[_idx]` while the cursor
is inside the table, otherwise fall through to the live buffer. -/
def get_bar (st : FeedState) (e : Env) : Option Bar × FeedState :=
  if 0 ≤ st.idx ∧ st.idx < (st.hist_data.length : Int) then
    (st.hist_data[st.idx.toNat]?, st)
  else get_bar_live st e

/-- `next` (lines 291-312), the advance call: serve the next historical row
while `0 ≤ _idx < len - 1` (via `_next_historical`, whose Boolean result is
discarded — this branch returns `True` unconditionally), flip to live mode
when `_idx == len - 1`, and otherwise poll live. -/
def next (st : FeedState) (e : Env) : Bool × FeedState :=
  if 0 ≤ st.idx ∧ st.idx < (st.hist_data.length : Int) - 1 then
    (true, { st with idx := st.idx + 1 })
  else if st.idx = (st.hist_data.length : Int) - 1 then
    load_next_live_bar
      (if st.p.historical then { st with idx := st.idx + 1 }
       else { st with idx := st.idx + 1, live_buffer := [], last_bar_time := none }) e
  else load_next_live_bar st e

/-- `islive` (lines 326-328): unconditionally `True`. -/
def islive (_st : FeedState) : Bool := true

/-- Inner loop of `_load_historical_data` for intraday feeds
(lines 107-116): bar minutes from the 9:30 session start, stepping by the
timeframe, while strictly before the 16:00 session end.  Python loops forever
when the step is zero; the `0 < tf` guard makes this model total, and every
claim about the intraday path assumes a positive step. -/
def minutesLoop (tf m : Nat) : List Nat :=
  if _h : 0 < tf ∧ m < 960 then m :: minutesLoop tf (m + tf)
  else []
termination_by 960 - m
decreasing_by omega

/-- The timestamp list built by the date loop of `_load_historical_data`
(lines 99-124): one day at a time from `cur` while `cur ≤ endT`, skipping
weekends, with one bar per day for daily feeds and one bar per intraday
interval of the hardcoded 9:30-16:00 session otherwise. -/
def histDates (intraday : Bool) (tf cur endT : Nat) : List Nat :=
  if _h : cur ≤ endT then
    (if weekday cur < 5 then
      (if intraday then (minutesLoop tf 570).map (fun m => (cur / 1440) * 1440 + m)
       else [cur])
     else [])
    ++ histDates intraday tf (cur + 1440) endT
  else []
termination_by endT + 1 - cur
decreasing_by omega

/-- Close price of the `i`-th historical bar (line 136):
`np.cumsum(np.random.normal(0.01, 0.1, n)) + 100`. -/
def cumClose (ns : NoiseStreams) : Nat → ℚ
  | 0 => 100 + ns.closeDelta 0
  | i + 1 => cumClose ns i + ns.closeDelta (i + 1)

/-- The `i`-th row of the dummy historical DataFrame (lines 136-150):
`open = close - openNoise`, `high = max(close, open) + highNoise`,
`low = min(close, open) - lowNoise`, `openinterest = 0`. -/
def mkHistBar (ns : NoiseStreams) (i t : Nat) : Bar :=
  { datetime := t
    «open» := cumClose ns i - ns.openNoise i
    high := max (cumClose ns i) (cumClose ns i - ns.openNoise i) + ns.highNoise i
    low := min (cumClose ns i) (cumClose ns i - ns.openNoise i) - ns.lowNoise i
    close := cumClose ns i
    volume := ns.vol i
    openinterest := 0 }

/-- `_load_historical_data` (lines 83-157) as the bar sequence it produces
for a requested range (an empty range yields the empty sequence and no
error). -/
def load_historical_data (intraday : Bool) (tf fromT toT : Nat)
    (ns : NoiseStreams) : List Bar :=
  (histDates intraday tf fromT toT).enum.map (fun p => mkHistBar ns p.1 p.2)

end TradeLockerFeed

namespace EmaCrossStrategy

/-- The backtrader order statuses named by `momentum_bot.py`
(lines 49-61). -/
inductive OrderStatus where
  | Submitted
  | Accepted
  | Completed
  | Canceled
  | Margin
  | Rejected
  deriving DecidableEq

/-- The strategy state read by `EmaCrossStrategy.next`: the pending-order
slot `self.order` (an opaque order handle, modelled by its id) and the
truthiness of `self.position`. -/
structure StratState where
  order : Option Nat
  position : Bool
  deriving DecidableEq

/-- `notify_order` (lines 47-65): on `Submitted`/`Accepted` return without
touching the pending slot; on every other status fall through to
`self.order = None`. -/
def notify_order (st : StratState) (status : OrderStatus) : StratState :=
  match status with
  | .Submitted | .Accepted => st
  | _ => { st with order := none }

/-- `EmaCrossStrategy.next` (lines 74-98): return immediately while an order
is pending, otherwise buy on a positive crossover when flat, or sell on a
negative crossover when in the market.  The Boolean reports whether a new
order was submitted, and `newOrder` is the handle the broker would return
for it. -/
def next (st : StratState) (crossover : Int) (newOrder : Nat) :
    StratState × Bool :=
  if st.order.isSome then (st, false)
  else if !st.position then
    (if 0 < crossover then ({ st with order := some newOrder }, true)
     else (st, false))
  else
    (if crossover < 0 then ({ st with order := some newOrder }, true)
     else (st, false))

end EmaCrossStrategy

/-- Repeated advance: the state after calling `next` once per environment in
the list, in order. -/
def advanceSeq (st : FeedState) : List Env → FeedState
  | [] => st
  | e :: es => advanceSeq (TradeLockerFeed.next st e).2 es

/-- Repeated advance keeping the last call's result: `iterate_next st e k` is
the result of the `(k+1)`-st call of `next` when every call sees the
environment `e`. -/
def iterate_next (st : FeedState) (e : Env) : Nat → Bool × FeedState
  | 0 => TradeLockerFeed.next st e
  | k + 1 => TradeLockerFeed.next (iterate_next st e k).2 e

/-- Repeated live polling: all bars emitted by calling `_fetch_live_bar` once
per environment in the list, together with the final state. -/
def poll_seq (st : FeedState) : List Env → List Bar × FeedState
  | [] => ([], st)
  | e :: es =>
    match TradeLockerFeed.fetch_live_bar st e with
    | (some b, st2) => ((poll_seq st2 es).1.cons b, (poll_seq st2 es).2)
    | (none, st2) => poll_seq st2 es

/-! Concrete instances used by the scenario claims and the witnesses. -/

/-- A fully-populated parameter record: symbol and API handle present, daily
timeframe, historical preload on, no session window. -/
def liveArgs : CtorArgs :=
  { symbol := some "AAPL", timeframe := ['1', 'd'], fromdate := none,
    todate := none, historical := true, backfill := true, api := some (),
    ohlcv := true, sessionstart := none, sessionend := none }

/-- The three daily bars of the historical-only scenario: Monday 2024-01-01
(day 19723, minute 28401120), Tuesday 2024-01-02 and Wednesday 2024-01-03,
all weekdays. -/
def histBars3 : List Bar :=
  [ { datetime := 28401120, «open» := 100, high := 101, low := 99,
      close := 100, volume := 5000, openinterest := 0 },
    { datetime := 28402560, «open» := 100, high := 102, low := 100,
      close := 101, volume := 5200, openinterest := 0 },
    { datetime := 28404000, «open» := 101, high := 103, low := 100,
      close := 102, volume := 5400, openinterest := 0 } ]

/-- The feed state right after `start()` in the historical-only scenario:
the 3-bar table is loaded, the loader recorded the last bar's timestamp
(line 154), and `start` set `_idx = -1` (line 81). -/
def histState3 : FeedState :=
  { p := { liveArgs with fromdate := some 28401120, todate := some 28404000 },
    intraday := false, hist_data := histBars3, idx := -1,
    live_buffer := [], last_bar_time := some 28404000, last_bar := none }

/-- A wall clock on Saturday 2024-01-06 (day 19728): both live gates are
closed there, so live generation is disabled, as the historical-only
scenario requires. -/
def offEnv : Env := { now := 28408320, tmod2 := 0, tmod1000 := 0 }

/-- All-zero noise streams (with the volume draw pinned inside its
`randint(1000, 10000)` range). -/
def nsZero : NoiseStreams :=
  { closeDelta := fun _ => 0, openNoise := fun _ => 0, highNoise := fun _ => 0,
    lowNoise := fun _ => 0, vol := fun _ => 1000 }

/-- Noise streams whose high offset is the negative sample `-1`, a value the
`normal(0.05, 0.05)` draw of line 138 produces with positive probability. -/
def badNS : NoiseStreams :=
  { closeDelta := fun _ => 0, openNoise := fun _ => 0, highNoise := fun _ => -1,
    lowNoise := fun _ => 0, vol := fun _ => 1000 }

/-! Claim theorems. -/

/-- Python's `int` accumulator on a digit string computes the decimal value
of the digit sequence (most-significant digit first). -/
theorem foldl_digits_eq_ofDigits (ds : List Char) (a : Nat) :
    ds.foldl (fun n c => n * 10 + (c.toNat - 48)) a
      = a * 10 ^ ds.length + Nat.ofDigits 10 ((ds.map (fun c => c.toNat - 48)).reverse) := by
  induction ds generalizing a with
  | nil => simp [Nat.ofDigits_nil]
  | cons d tl ih =>
    simp only [List.foldl_cons, List.map_cons, List.reverse_cons, List.length_cons]
    rw [ih, Nat.ofDigits_append, Nat.ofDigits_singleton,
      List.length_reverse, List.length_map]
    ring

/-- C1: in the historical-only scenario (3 daily bars 2024-01-01..03 loaded,
cursor freshly started at `-1`, live generation disabled by a weekend
clock), every `next()` call — the first one included — returns `false` and
leaves the state, in particular the cursor at `-1`, unchanged.  The first
branch of `next` requires `0 ≤ _idx`, and the transition branch requires
`_idx == len - 1`, so from `_idx = -1` with a non-empty table the call falls
through to the (gated-off) live poll: the code never serves the three
historical bars the claim expects. -/
theorem c1_historical_bars_never_served (k : Nat) :
    iterate_next histState3 offEnv k = (false, histState3) := by
  have hstep : TradeLockerFeed.next histState3 offEnv = (false, histState3) := rfl
  induction k with
  | zero => exact hstep
  | succ k ih =>
    show TradeLockerFeed.next (iterate_next histState3 offEnv k).2 offEnv = _
    rw [ih]
    exact hstep

/-- Witness for C1 at the fourth call. -/
theorem c1_historical_bars_never_served_witness :
    iterate_next histState3 offEnv 3 = (false, histState3) :=
  c1_historical_bars_never_served 3

/-- C10: `islive()` returns `true` in every reachable feed state — whatever
state the feed is started in and whatever sequence of advance calls has been
processed since, historical-serving and historical-only configurations
included. -/
theorem c10_islive_always_true (st : FeedState) (es : List Env) :
    TradeLockerFeed.islive (advanceSeq st es) = true := rfl

/-- Witness for C10 on a concrete started state and advance sequence. -/
theorem c10_islive_always_true_witness :
    TradeLockerFeed.islive (advanceSeq histState3 [offEnv]) = true :=
  c10_islive_always_true histState3 [offEnv]

/-- C9: while an order is pending (`self.order` truthy) a bar triggers no
new submission and leaves the strategy state unchanged; every resolving
status (anything other than `Submitted`/`Accepted`, in particular
`Completed`, `Canceled`, `Margin`, `Rejected`) clears the pending slot; and
a submission can only happen when no order is pending. -/
theorem c9_pending_order_guard :
    (∀ (st : EmaCrossStrategy.StratState) (c : Int) (oid : Nat),
      st.order.isSome = true → EmaCrossStrategy.next st c oid = (st, false)) ∧
    (∀ (st : EmaCrossStrategy.StratState) (s : EmaCrossStrategy.OrderStatus),
      s ≠ .Submitted → s ≠ .Accepted →
      (EmaCrossStrategy.notify_order st s).order = none) ∧
    (∀ (st : EmaCrossStrategy.StratState) (c : Int) (oid : Nat),
      (EmaCrossStrategy.next st c oid).2 = true → st.order = none) := by
  refine ⟨?_, ?_, ?_⟩
  · intro st c oid h
    unfold EmaCrossStrategy.next
    rw [if_pos h]
  · intro st s hs ha
    cases s <;> simp [EmaCrossStrategy.notify_order] <;> simp_all
  · intro st c oid h
    by_cases hp : st.order.isSome = true
    · rw [(by unfold EmaCrossStrategy.next; rw [if_pos hp] :
        EmaCrossStrategy.next st c oid = (st, false))] at h
      simp at h
    · exact Option.not_isSome_iff_eq_none.1 hp

/-- Witness for C9: a pending order blocks the submission on a
golden-cross bar, and a `Completed` notification clears the pending slot. -/
theorem c9_pending_order_guard_witness :
    EmaCrossStrategy.next ⟨some 1, false⟩ 1 2 = (⟨some 1, false⟩, false) ∧
    (EmaCrossStrategy.notify_order ⟨some 1, false⟩ .Completed).order = none :=
  ⟨c9_pending_order_guard.1 ⟨some 1, false⟩ 1 2 rfl,
   c9_pending_order_guard.2.1 ⟨some 1, false⟩ .Completed
     (by simp) (by simp)⟩

/-- C7: construction fails with one of the two configuration errors exactly
when the API handle or the symbol is absent; with both present no
missing-api / missing-symbol error is raised (the only other construction
failure is the `IndexError` of an empty timeframe string, which is a
different error). -/
theorem c7_construction_errors (args : CtorArgs) :
    (TradeLockerFeed.feedInit args = .error .missingApi ∨
      TradeLockerFeed.feedInit args = .error .missingSymbol)
      ↔ (args.api = none ∨ args.symbol = none) := by
  rcases hapi : args.api with _ | u
  · simp [TradeLockerFeed.feedInit, hapi]
  · rcases hsym : args.symbol with _ | s
    · simp [TradeLockerFeed.feedInit, hapi, hsym]
    · by_cases htf : args.timeframe.isEmpty <;>
        simp [TradeLockerFeed.feedInit, hapi, hsym, htf]

/-- Witness for C7 on a record missing its API handle. -/
theorem c7_construction_errors_witness :
    (TradeLockerFeed.feedInit { liveArgs with api := none } = .error .missingApi ∨
      TradeLockerFeed.feedInit { liveArgs with api := none } = .error .missingSymbol)
      ↔ ({ liveArgs with api := none } : CtorArgs).api = none ∨
        ({ liveArgs with api := none } : CtorArgs).symbol = none :=
  c7_construction_errors { liveArgs with api := none }

/-- C8: a successfully constructed feed classifies its timeframe as
daily-or-coarser (`intraday = false`) exactly when the last character is
`'d'`, `'w'` or `'m'`; and for any timeframe written as a non-empty digit
prefix followed by one unit character, the minute count `int(timeframe[:-1])`
parsed by the feed is the decimal value of that digit prefix. -/
theorem c8_timeframe_classification (args : CtorArgs)
    (r : TradeLockerFeed.InitResult)
    (h : TradeLockerFeed.feedInit args = .ok r) :
    (r.intraday = false ↔
      (args.timeframe.getLast? = some 'd' ∨ args.timeframe.getLast? = some 'w' ∨
        args.timeframe.getLast? = some 'm')) ∧
    (∀ (ds : List Char) (c : Char), args.timeframe = ds ++ [c] → ds ≠ [] →
      (∀ d ∈ ds, d.isDigit = true) →
      pyInt? args.timeframe.dropLast
        = some (Nat.ofDigits 10 ((ds.map (fun d => d.toNat - 48)).reverse))) := by
  unfold TradeLockerFeed.feedInit at h
  split at h
  · simp at h
  · split at h
    · simp at h
    · split at h
      · simp at h
      · rw [Except.ok.injEq] at h
        subst h
        constructor
        · simp only [TradeLockerFeed.intradayOf, Bool.not_eq_false',
            Bool.or_eq_true, beq_iff_eq]
          tauto
        · intro ds c hds hne hdig
          rw [hds, List.dropLast_concat]
          unfold pyInt?
          rw [if_pos ⟨hne, hdig⟩, foldl_digits_eq_ofDigits]
          simp

/-- Witness for C8 on the timeframe `"1h"`: classified intraday, with minute
count `1`. -/
theorem c8_timeframe_classification_witness :
    (TradeLockerFeed.InitResult.mk true).intraday = false ↔
      (({ liveArgs with timeframe := ['1', 'h'] } : CtorArgs).timeframe.getLast?
          = some 'd' ∨
        ({ liveArgs with timeframe := ['1', 'h'] } : CtorArgs).timeframe.getLast?
          = some 'w' ∨
        ({ liveArgs with timeframe := ['1', 'h'] } : CtorArgs).timeframe.getLast?
          = some 'm') :=
  (c8_timeframe_classification { liveArgs with timeframe := ['1', 'h'] }
    (TradeLockerFeed.InitResult.mk true) rfl).1

/-- One `_fetch_live_bar` call never touches the cursor or the historical
table: every branch returns the state unchanged or only updates
`last_bar` / `last_bar_time`. -/
theorem fetch_live_bar_proj (st : FeedState) (e : Env) :
    (TradeLockerFeed.fetch_live_bar st e).2.idx = st.idx ∧
    (TradeLockerFeed.fetch_live_bar st e).2.hist_data = st.hist_data := by
  unfold TradeLockerFeed.fetch_live_bar
  split
  · exact ⟨rfl, rfl⟩
  · split
    · exact ⟨rfl, rfl⟩
    · exact ⟨rfl, rfl⟩

/-- One `_load_next_live_bar` call never touches the cursor or the
historical table. -/
theorem load_next_live_bar_proj (st : FeedState) (e : Env) :
    (TradeLockerFeed.load_next_live_bar st e).2.idx = st.idx ∧
    (TradeLockerFeed.load_next_live_bar st e).2.hist_data = st.hist_data := by
  have h := fetch_live_bar_proj st e
  rcases hfe : TradeLockerFeed.fetch_live_bar st e with ⟨ob, st2⟩
  rw [hfe] at h
  cases ob <;> simp only [TradeLockerFeed.load_next_live_bar, hfe] <;> exact h

/-- In the live state (`len(hist_data) ≤ _idx`) an advance call takes the
final `_next_live` branch of `next` and therefore preserves the cursor
and the historical table. -/
theorem next_preserves_of_live (st : FeedState) (e : Env)
    (h : (st.hist_data.length : Int) ≤ st.idx) :
    (TradeLockerFeed.next st e).2.idx = st.idx ∧
    (TradeLockerFeed.next st e).2.hist_data = st.hist_data := by
  unfold TradeLockerFeed.next
  rw [if_neg (by omega), if_neg (by omega)]
  exact load_next_live_bar_proj st e

/-- C2: once the cursor is at or past the historical table length, any
sequence of advance calls leaves the cursor and the table unchanged (so the
cursor never moves back below the table length), and `_get_bar` in every
state so reached takes the live path, never the historical-row branch. -/
theorem c2_live_mode_absorbing (st : FeedState) (es : List Env)
    (h : (st.hist_data.length : Int) ≤ st.idx) :
    (advanceSeq st es).idx = st.idx ∧
    (advanceSeq st es).hist_data = st.hist_data ∧
    ∀ e, TradeLockerFeed.get_bar (advanceSeq st es) e
      = TradeLockerFeed.get_bar_live (advanceSeq st es) e := by
  induction es generalizing st with
  | nil =>
    refine ⟨rfl, rfl, fun e => ?_⟩
    show TradeLockerFeed.get_bar st e = TradeLockerFeed.get_bar_live st e
    unfold TradeLockerFeed.get_bar
    rw [if_neg (by omega)]
  | cons e es ih =>
    simp only [advanceSeq]
    have hp := next_preserves_of_live st e h
    have h2 : ((TradeLockerFeed.next st e).2.hist_data.length : Int)
        ≤ (TradeLockerFeed.next st e).2.idx := by
      rw [hp.1, hp.2]; exact h
    have hrest := ih (TradeLockerFeed.next st e).2 h2
    exact ⟨by rw [hrest.1, hp.1], by rw [hrest.2.1, hp.2], hrest.2.2⟩

/-- A started feed whose (empty) historical table is already exhausted:
cursor `0`, table length `0` — the live state. -/
def liveState0 : FeedState :=
  { p := liveArgs, intraday := false, hist_data := [], idx := 0,
    live_buffer := [], last_bar_time := none, last_bar := none }

/-- Witness for C2: a feed with an exhausted (empty) table and cursor `0`
keeps its cursor and table across an advance. -/
theorem c2_live_mode_absorbing_witness :
    (advanceSeq liveState0 [Env.mk 0 0 0]).idx = liveState0.idx ∧
    (advanceSeq liveState0 [Env.mk 0 0 0]).hist_data = liveState0.hist_data :=
  ⟨(c2_live_mode_absorbing liveState0 [Env.mk 0 0 0] (by simp [liveState0])).1,
   (c2_live_mode_absorbing liveState0 [Env.mk 0 0 0] (by simp [liveState0])).2.1⟩

/-- C4: with a recorded last-known timestamp `T`, one `_fetch_live_bar`
invocation either produces no bar or produces exactly one bar, and in the
latter case the bar's timestamp is strictly greater than `T`: the
duplicate-suppression gate of line 198 rejects every candidate time
`≤ T`. -/
theorem c4_live_poller_dedup (st : FeedState) (e : Env) (T : Nat)
    (h : st.last_bar_time = some T) :
    (TradeLockerFeed.fetch_live_bar st e).1 = none ∨
      ∃ b, (TradeLockerFeed.fetch_live_bar st e).1 = some b ∧ T < b.datetime := by
  unfold TradeLockerFeed.fetch_live_bar
  split
  · exact Or.inl rfl
  · rw [h]
    split
    · exact Or.inl rfl
    · next hdup =>
      refine Or.inr ⟨_, rfl, ?_⟩
      simp only [TradeLockerFeed.isDup, decide_eq_true_eq] at hdup
      show T < TradeLockerFeed.bar_time_of st.intraday _ e.now
      omega

/-- A started daily feed whose last-known timestamp is minute `0`. -/
def dedupState : FeedState :=
  { p := liveArgs, intraday := false, hist_data := [], idx := 0,
    live_buffer := [], last_bar_time := some 0, last_bar := none }

/-- Witness for C4 at last-known timestamp `0` on a Thursday-midnight
clock. -/
theorem c4_live_poller_dedup_witness :
    (TradeLockerFeed.fetch_live_bar dedupState (Env.mk 0 0 0)).1 = none ∨
      ∃ b, (TradeLockerFeed.fetch_live_bar dedupState (Env.mk 0 0 0)).1 = some b ∧
        0 < b.datetime :=
  c4_live_poller_dedup dedupState (Env.mk 0 0 0) 0 rfl

/-- With a configured session window, an environment outside the inclusive
time-of-day window or outside Monday-Friday closes both gates:
`_fetch_live_bar` produces nothing and changes nothing. -/
theorem fetch_gate_closed (st : FeedState) (e : Env) (ss se : Nat)
    (h1 : st.p.sessionstart = some ss) (h2 : st.p.sessionend = some se)
    (h : ¬(ss ≤ e.now % 1440 ∧ e.now % 1440 ≤ se) ∨
      5 ≤ TradeLockerFeed.weekday e.now) :
    TradeLockerFeed.fetch_live_bar st e = (none, st) := by
  unfold TradeLockerFeed.fetch_live_bar
  split
  · rfl
  · next hgate =>
    exfalso
    unfold TradeLockerFeed.is_trading_hours TradeLockerFeed.is_weekday at hgate
    rw [h1, h2] at hgate
    simp only [Bool.not_eq_true', Bool.not_eq_false, Bool.and_eq_true,
      decide_eq_true_eq] at hgate
    rcases h with h | h
    · exact h ⟨hgate.1.1, hgate.1.2⟩
    · omega

/-- C5: for a feed with both session bounds configured, any sequence of
live-poll invocations whose wall clocks are each outside the inclusive
session window or not on a business day produces no bar at all and leaves
the feed state untouched. -/
theorem c5_session_gate (st : FeedState) (ss se : Nat) (envs : List Env)
    (h1 : st.p.sessionstart = some ss) (h2 : st.p.sessionend = some se)
    (h : ∀ e ∈ envs, ¬(ss ≤ e.now % 1440 ∧ e.now % 1440 ≤ se) ∨
      5 ≤ TradeLockerFeed.weekday e.now) :
    poll_seq st envs = ([], st) := by
  induction envs with
  | nil => rfl
  | cons e es ih =>
    show (match TradeLockerFeed.fetch_live_bar st e with
      | (some b, st2) => ((poll_seq st2 es).1.cons b, (poll_seq st2 es).2)
      | (none, st2) => poll_seq st2 es) = ([], st)
    rw [fetch_gate_closed st e ss se h1 h2 (h e (List.mem_cons_self e es))]
    exact ih (fun e' he' => h e' (List.mem_cons_of_mem e he'))

/-- A started feed with the 09:30-16:00 session window configured. -/
def sessionState : FeedState :=
  { p := { liveArgs with sessionstart := some 570, sessionend := some 960 },
    intraday := false, hist_data := [], idx := 0, live_buffer := [],
    last_bar_time := none, last_bar := none }

/-- Witness for C5: polling at Thursday midnight (before the 09:30 session
start) emits nothing. -/
theorem c5_session_gate_witness :
    poll_seq sessionState [Env.mk 0 0 0] = ([], sessionState) :=
  c5_session_gate sessionState 570 960 [Env.mk 0 0 0] rfl rfl (by
    intro e he
    rw [List.mem_singleton] at he
    subst he
    left
    decide)

/-- C6: a requested range with `fromdate > todate` makes the date loop of
`_load_historical_data` run zero iterations: the loader returns zero bars
and raises no error. -/
theorem c6_empty_range (intraday : Bool) (tf fromT toT : Nat)
    (ns : NoiseStreams) (h : toT < fromT) :
    TradeLockerFeed.load_historical_data intraday tf fromT toT ns = [] := by
  unfold TradeLockerFeed.load_historical_data
  rw [TradeLockerFeed.histDates, dif_neg (by omega)]
  rfl

/-- Witness for C6 on the concrete empty range `[5, 3]`. -/
theorem c6_empty_range_witness :
    TradeLockerFeed.load_historical_data false 1 5 3 nsZero = [] :=
  c6_empty_range false 1 5 3 nsZero (by omega)

/-- Every entry of the intraday minute loop is at least the loop's starting
minute. -/
theorem minutesLoop_le (tf m : Nat) :
    ∀ x ∈ TradeLockerFeed.minutesLoop tf m, m ≤ x := by
  intro x hx
  rw [TradeLockerFeed.minutesLoop] at hx
  split at hx
  · rcases List.mem_cons.1 hx with rfl | hx2
    · exact Nat.le_refl x
    · have h2 := minutesLoop_le tf (m + tf) x hx2
      omega
  · exact absurd hx (List.not_mem_nil x)
termination_by 960 - m
decreasing_by omega

/-- Every entry of the intraday minute loop is strictly before the 16:00
session end. -/
theorem minutesLoop_lt (tf m : Nat) :
    ∀ x ∈ TradeLockerFeed.minutesLoop tf m, x < 960 := by
  intro x hx
  rw [TradeLockerFeed.minutesLoop] at hx
  split at hx
  · rcases List.mem_cons.1 hx with rfl | hx2
    · omega
    · exact minutesLoop_lt tf (m + tf) x hx2
  · exact absurd hx (List.not_mem_nil x)
termination_by 960 - m
decreasing_by omega

/-- The intraday minute loop is strictly increasing. -/
theorem minutesLoop_pairwise (tf m : Nat) :
    (TradeLockerFeed.minutesLoop tf m).Pairwise (· < ·) := by
  rw [TradeLockerFeed.minutesLoop]
  split
  · refine List.pairwise_cons.2 ⟨fun b hb => ?_, minutesLoop_pairwise tf (m + tf)⟩
    have h2 := minutesLoop_le tf (m + tf) b hb
    omega
  · exact List.Pairwise.nil
termination_by 960 - m
decreasing_by omega

/-- Every timestamp produced by the date loop from day `cur` onwards lies at
or after the midnight of `cur`'s day. -/
theorem histDates_lb (intraday : Bool) (tf cur endT : Nat) :
    ∀ x ∈ TradeLockerFeed.histDates intraday tf cur endT,
      (cur / 1440) * 1440 ≤ x := by
  intro x hx
  rw [TradeLockerFeed.histDates] at hx
  split at hx
  · rcases List.mem_append.1 hx with h1 | h2
    · split at h1
      · split at h1
        · rcases List.mem_map.1 h1 with ⟨m, _, rfl⟩
          omega
        · rcases List.mem_singleton.1 h1 with rfl
          omega
      · exact absurd h1 (List.not_mem_nil x)
    · have h3 := histDates_lb intraday tf (cur + 1440) endT x h2
      omega
  · exact absurd hx (List.not_mem_nil x)
termination_by endT + 1 - cur
decreasing_by omega

/-- The timestamps produced by the date loop are strictly increasing: the
bars of one day stay within that day (before minute 960 for intraday, at
the loop's current instant for daily) and later days start at least a full
day later. -/
theorem histDates_pairwise (intraday : Bool) (tf cur endT : Nat) :
    (TradeLockerFeed.histDates intraday tf cur endT).Pairwise (· < ·) := by
  rw [TradeLockerFeed.histDates]
  split
  · refine List.pairwise_append.2
      ⟨?_, histDates_pairwise intraday tf (cur + 1440) endT, ?_⟩
    · split
      · split
        · refine List.pairwise_map.2 ?_
          exact (minutesLoop_pairwise tf 570).imp (fun hab => by omega)
        · exact List.pairwise_singleton _ _
      · exact List.Pairwise.nil
    · intro a ha b hb
      have hb2 := histDates_lb intraday tf (cur + 1440) endT b hb
      split at ha
      · split at ha
        · rcases List.mem_map.1 ha with ⟨m, hm, rfl⟩
          have h960 := minutesLoop_lt tf 570 m hm
          omega
        · rcases List.mem_singleton.1 ha with rfl
          omega
      · exact absurd ha (List.not_mem_nil a)
  · exact List.Pairwise.nil
termination_by endT + 1 - cur
decreasing_by omega

/-- C3 (counterexample): the claim fails as stated.  On the one-day range
`[0, 0]` (Thursday 1970-01-01) with a noise stream whose high offset is the
negative sample `-1` — a value `np.random.normal(0.05, 0.05)` produces with
positive probability — the single loaded bar has
`high = max(open, close) - 1 < max(open, close)`. -/
theorem c3_loader_contract_counterexample :
    ¬ ∀ b ∈ TradeLockerFeed.load_historical_data false 1 0 0 badNS,
        max b.«open» b.close ≤ b.high ∧ b.low ≤ min b.«open» b.close := by
  intro hall
  have h2 : TradeLockerFeed.histDates false 1 1440 0 = [] := by
    rw [TradeLockerFeed.histDates, dif_neg (by omega)]
  have h1 : TradeLockerFeed.histDates false 1 0 0 = [0] := by
    rw [TradeLockerFeed.histDates]
    simp [TradeLockerFeed.weekday, h2]
  have hload : TradeLockerFeed.load_historical_data false 1 0 0 badNS
      = [TradeLockerFeed.mkHistBar badNS 0 0] := by
    unfold TradeLockerFeed.load_historical_data
    rw [h1]
    rfl
  have hb := (hall (TradeLockerFeed.mkHistBar badNS 0 0)
    (by rw [hload]; exact List.mem_singleton.2 rfl)).1
  rw [show (TradeLockerFeed.mkHistBar badNS 0 0).high
      = max (100 : ℚ) 100 + (-1) from by
    norm_num [TradeLockerFeed.mkHistBar, TradeLockerFeed.cumClose, badNS]] at hb
  rw [show (TradeLockerFeed.mkHistBar badNS 0 0).«open» = (100 : ℚ) from by
    norm_num [TradeLockerFeed.mkHistBar, TradeLockerFeed.cumClose, badNS]] at hb
  rw [show (TradeLockerFeed.mkHistBar badNS 0 0).close = (100 : ℚ) from by
    norm_num [TradeLockerFeed.mkHistBar, TradeLockerFeed.cumClose, badNS]] at hb
  norm_num at hb

/-- C3 (amended): for every date range and every noise stream, with a
positive intraday step, the loader's bars have strictly increasing
timestamps; and whenever the sampled high and low offsets are nonnegative
(the code draws them from `normal(0.05, 0.05)`, which does not guarantee
this), every bar also satisfies `high ≥ max(open, close)` and
`low ≤ min(open, close)`. -/
theorem c3_loader_contract_amended (intraday : Bool) (tf fromT toT : Nat)
    (ns : NoiseStreams) (_htf : 0 < tf) :
    (TradeLockerFeed.load_historical_data intraday tf fromT toT ns).Pairwise
      (fun a b => a.datetime < b.datetime) ∧
    ((∀ i, 0 ≤ ns.highNoise i) → (∀ i, 0 ≤ ns.lowNoise i) →
      ∀ b ∈ TradeLockerFeed.load_historical_data intraday tf fromT toT ns,
        max b.«open» b.close ≤ b.high ∧ b.low ≤ min b.«open» b.close) := by
  constructor
  · unfold TradeLockerFeed.load_historical_data
    rw [List.pairwise_map]
    have hd := histDates_pairwise intraday tf fromT toT
    rw [← List.enum_map_snd (TradeLockerFeed.histDates intraday tf fromT toT),
      List.pairwise_map] at hd
    exact hd.imp (fun hab => hab)
  · intro hh hl b hb
    unfold TradeLockerFeed.load_historical_data at hb
    rcases List.mem_map.1 hb with ⟨⟨i, t⟩, _, rfl⟩
    constructor
    · show max (TradeLockerFeed.cumClose ns i - ns.openNoise i)
          (TradeLockerFeed.cumClose ns i)
        ≤ max (TradeLockerFeed.cumClose ns i)
          (TradeLockerFeed.cumClose ns i - ns.openNoise i) + ns.highNoise i
      rw [max_comm]
      exact le_add_of_nonneg_right (hh i)
    · show min (TradeLockerFeed.cumClose ns i)
          (TradeLockerFeed.cumClose ns i - ns.openNoise i) - ns.lowNoise i
        ≤ min (TradeLockerFeed.cumClose ns i - ns.openNoise i)
          (TradeLockerFeed.cumClose ns i)
      rw [min_comm]
      exact sub_le_self _ (hl i)

/-- Witness for the amended C3 on the one-day range `[0, 0]`: the
monotonicity conjunct holds even for the negative-offset stream of the
counterexample. -/
theorem c3_loader_contract_amended_witness :
    (TradeLockerFeed.load_historical_data false 1 0 0 badNS).Pairwise
      (fun a b => a.datetime < b.datetime) :=
  (c3_loader_contract_amended false 1 0 0 badNS (by omega)).1

end TradingBot
